import Mathlib

/-!

Verification of reskit core.py (class Pipeliner).

The Python state and operations are shallowly embedded as follows.

A Python dict and OrderedDict (string keys) is an insertion-ordered list of
key-value pairs with unique keys: odLookup, odInsert, odDel below implement
lookup, assignment and deletion with exactly the dict semantics (assignment
to a present key replaces the value in place, otherwise appends; iteration
order is list order).  Runtime exceptions are modeled by PyErr and Except.

The sklearn and pandas collaborators (transformers, GridSearchCV,
cross_val_score, cross_val_predict, scoring functions, DataFrame cells) are
abstracted at their interface boundary as function parameters, as the spec
prescribes for external collaborators; everything the repository itself
computes is translated statement by statement from src/reskit/core.py.

-/

/-- Python dict lookup d[k]: the value at the first (and, with unique keys,
only) matching key. -/
def odLookup {α : Type} : List (String × α) → String → Option α
  | [], _ => none
  | e :: rest, k => if e.1 = k then some e.2 else odLookup rest k

/-- Python dict assignment d[k] = v: replaces the value in place when the key
is present, otherwise appends the new entry at the end (insertion order). -/
def odInsert {α : Type} : List (String × α) → String → α → List (String × α)
  | [], k, v => [(k, v)]
  | e :: rest, k, v => if e.1 = k then (k, v) :: rest else e :: odInsert rest k v

/-- Python dict deletion del d[k]: removes the entry with key k. -/
def odDel {α : Type} : List (String × α) → String → List (String × α)
  | [], _ => []
  | e :: rest, k => if e.1 = k then rest else e :: odDel rest k

/-- list(d): the keys of a dict in insertion order. -/
def odKeys {α : Type} (d : List (String × α)) : List String := d.map Prod.fst

/-- OrderedDict(l) built from a list of pairs: duplicate keys collapse
(first position, last value), matching the Python conversion. -/
def odFromList {α : Type} (l : List (String × α)) : List (String × α) :=
  l.foldl (fun d e => odInsert d e.1 e.2) []

/-- Runtime errors raised by the translated Python code. -/
inductive PyErr
  | nameError
  | keyError
  | indexError
deriving DecidableEq

/-- Source accept_from_banned_combos, core.py lines 118-122: the candidate row
is rejected (False) exactly when set of the banned combo minus set of the row
keys is empty, i.e. when both names of the combo occur among the row keys. -/
def accept_from_banned_combos (row_keys : List String) (banned_combo : String × String) : Bool :=
  if banned_combo.1 ∈ row_keys ∧ banned_combo.2 ∈ row_keys then false else true

/-- itertools.product over the per-step variant-name lists, in product order:
the leftmost position varies slowest, exactly the enumeration order of the
nested loop the Python generator performs. -/
def pyProduct : List (List String) → List (List String)
  | [] => [[]]
  | l :: rest => l.flatMap (fun x => (pyProduct rest).map (fun t => x :: t))

/-- The plan-row loop of Pipeliner.__init__, core.py lines 124-135: keep a
candidate row iff accept_from_banned_combos holds of every banned combo
(all(accept)).  A kept row, as an OrderedDict over zip(columns, row_keys),
is the row_keys tuple in column order, so rows are kept as key lists. -/
def plan_rows (column_keys : List (List String)) (banned_combos : List (String × String)) : List (List String) :=
  (pyProduct column_keys).filter (fun row_keys => banned_combos.all (accept_from_banned_combos row_keys))

/-- columns = list(steps) after the OrderedDict(steps) conversion,
core.py lines 113-114. -/
def pipelinerColumns {T : Type} (steps : List (String × List (String × T))) : List String :=
  odKeys (odFromList steps)

/-- column_keys = [list(steps[column]) for column in columns], core.py
line 124, after each steps[column] was converted to an OrderedDict. -/
def pipelinerColumnKeys {T : Type} (steps : List (String × List (String × T))) : List (List String) :=
  (odFromList steps).map (fun e => odKeys (odFromList e.2))

/-- self.plan_table as built by Pipeliner.__init__ (lines 124-137): the order
and content of its rows.  The DataFrame wrapper and the [columns] selection
only lay the kept OrderedDict rows out in column order, which the key lists
already are. -/
def pipelinerPlan {T : Type} (steps : List (String × List (String × T))) (banned_combos : List (String × String)) : List (List String) :=
  plan_rows (pipelinerColumnKeys steps) banned_combos

/-- The loop body of transform_X_from_last_cached, core.py lines 300-304,
instrumented with the list of (column, row_key) transformer applications it
performs, in order.  named_steps lookups are modeled by the total function ns
(column name, then variant name); the claims only concern rows whose names
are declared.  The lookup of the previous cache entry is the literal
self._cached_X[prev_key]. -/
def transform_X_go {α : Type} (ns : String → String → α → α) :
    List (String × α) → String → List (String × String) → Except PyErr (List (String × α) × List (String × String))
  | cache, _, [] => .ok (cache, [])
  | cache, prev_key, (row_key, column) :: rest =>
    match odLookup cache prev_key with
    | none => .error .keyError
    | some X =>
      match transform_X_go ns (odInsert cache row_key (ns column row_key X)) row_key rest with
      | .error e => .error e
      | .ok (c, applied) => .ok (c, (column, row_key) :: applied)

/-- transform_X_from_last_cached, core.py lines 298-304: start from the last
cached key (list(self._cached_X)[-1], IndexError on an empty dict) and walk
zip(row_keys, columns). -/
def transform_X_from_last_cached {α : Type} (ns : String → String → α → α)
    (cache : List (String × α)) (row_keys columns : List String) :
    Except PyErr (List (String × α) × List (String × String)) :=
  match (odKeys cache).getLast? with
  | none => .error .indexError
  | some prev_key => transform_X_go ns cache prev_key (row_keys.zip columns)

/-- Shared tail of transform_with_caching (lines 320-322): last_cached_key =
list(self._cached_X)[-1]; return self._cached_X[last_cached_key], y. -/
def twc_return {α β : Type} (y : β) :
    Except PyErr (List (String × α) × List (String × String)) →
    Except PyErr (List (String × α) × List (String × String) × α × β)
  | .error e => .error e
  | .ok (cache, applied) =>
    match (odKeys cache).getLast? with
    | none => .error .indexError
    | some last_cached_key =>
      match odLookup cache last_cached_key with
      | none => .error .keyError
      | some data => .ok (cache, applied, data, y)

/-- Pipeliner.transform_with_caching, core.py lines 261-322, translated
literally.  The threaded state is the OrderedDict self._cached_X; the result
carries the new state, the (column, row_key) fit_transform applications, the
returned data and y.  On the branch where the cache already holds the root
entry init, the source calls remove_unmatched_caching_X, whose first
statement is cp.copy(cached_keys), line 289; the module imports copy but
never binds cp, so that call raises NameError before touching the cache.
That branch is therefore the error. -/
def transform_with_caching {α β : Type} (ns : String → String → α → α)
    (plan_columns : List String) (X : α) (y : β) (row_keys : List String)
    (cache : List (String × α)) :
    Except PyErr (List (String × α) × List (String × String) × α × β) :=
  let columns := plan_columns.take row_keys.length
  if "init" ∉ odKeys cache then
    let cache1 := odInsert cache "init" X
    twc_return y (transform_X_from_last_cached ns cache1 row_keys columns)
  else
    .error .nameError

/-- The loop of remove_unmatched_caching_X after the initial list copy,
lines 290-293: walk zip(row_keys, cached_keys); break at the first mismatch;
at each match remove that key (first occurrence) from the working copy.
Arguments: working copy, row keys, cached keys.  Returns the keys that were
left unmatched. -/
def unmatched_keys : List String → List String → List String → List String
  | unmatched, row_key :: rks, cached_key :: cks =>
    if row_key = cached_key then unmatched_keys (unmatched.erase row_key) rks cks else unmatched
  | unmatched, _, _ => unmatched

/-- remove_unmatched_caching_X, core.py lines 287-296, with the single slip
repaired: its first statement cp.copy(cached_keys) read as copy.copy
(the only use the module has for its copy import).  After the matching loop
every unmatched key is deleted from the cache, in list order. -/
def remove_unmatched_caching_X {α : Type} (cache : List (String × α)) (row_keys : List String) : List (String × α) :=
  (unmatched_keys (odKeys cache) row_keys (odKeys cache)).foldl odDel cache

/-- transform_with_caching as intended: identical to the literal translation
except that remove_unmatched_caching_X runs (cp.copy read as copy.copy).
On the cached branch (lines 309-318): prepend init to row_keys and columns,
evict the unmatched entries, drop as many leading positions as there are
surviving cache entries (del row_keys[0] repeated), recompute the rest from
the last surviving entry, and return the data of the last entry. -/
def transform_with_caching_intended {α β : Type} (ns : String → String → α → α)
    (plan_columns : List String) (X : α) (y : β) (row_keys : List String)
    (cache : List (String × α)) :
    Except PyErr (List (String × α) × List (String × String) × α × β) :=
  let columns := plan_columns.take row_keys.length
  if "init" ∉ odKeys cache then
    let cache1 := odInsert cache "init" X
    twc_return y (transform_X_from_last_cached ns cache1 row_keys columns)
  else
    let row_keys1 := "init" :: row_keys
    let columns1 := "init" :: columns
    let cache1 := remove_unmatched_caching_X cache row_keys1
    let n := cache1.length
    let row_keys2 := row_keys1.drop n
    let columns2 := columns1.drop n
    twc_return y (transform_X_from_last_cached ns cache1 row_keys2 columns2)

/-- Recomputation of a full cacheable chain from scratch, following the words
of the spec (cache output equivalence): apply each position of the chain in
order, fit_transform chaining each output into the next input, starting from
the original input data. -/
def scratch_transform {α : Type} (ns : String → String → α → α)
    (columns row_keys : List String) (X : α) : α :=
  (row_keys.zip columns).foldl (fun acc p => ns p.2 p.1 acc) X

/-- The chain of cache entries the transform loop produces: one entry per
(row_key, column) pair, each value obtained by applying that position
transformer to the value of the previous entry, starting from X. -/
def chain_from {α : Type} (ns : String → String → α → α) : α → List (String × String) → List (String × α)
  | _, [] => []
  | X, (row_key, column) :: rest =>
    (row_key, ns column row_key X) :: chain_from ns (ns column row_key X) rest

/-- Longest common prefix length of two key sequences, comparing positionally:
a mismatch at position i makes the keys common only for indices below i. -/
def lcp_len : List String → List String → Nat
  | a :: as, b :: bs => if a = b then lcp_len as bs + 1 else 0
  | _, _ => 0

/-- param_key = join of row_keys with the empty separator, then str(scoring)
appended: core.py lines 383, 401 and 443. -/
def param_key (row_keys : List String) (scoring : String) : String :=
  String.join row_keys ++ scoring

/-- A cell of the grid-search result dict: the string sentinel NaN, a numeric
score, or str(best_params) for a parameter assignment. -/
inductive Cell (V : Type)
  | nan
  | num (v : V)
  | paramsStr (ps : List (String × V))
deriving DecidableEq

/-- Outcome of the GridSearchCV fit, abstracted at the sklearn boundary:
best_params_ as reported by sklearn (keys prefixed with the classifier key
and two underscores) and the mean and std of the test score of the best
parameter combination (the row of cv_results_ matching best_params_). -/
structure GridFit (V : Type) where
  best_params_ : List (String × V)
  mean_test : V
  std_test : V

/-- Pipeliner.get_grid_search_results, core.py lines 324-407.  The state is
self.best_params (a dict); the GridSearchCV fit itself is the abstracted
parameter fit.  In the branch with a declared grid, the best-params keys are
stripped of the classifier prefix (key sliced from classifier_key length plus
two on) and the three result cells are the matched mean, the matched std and
str(best_params); the assignment is stored under param_key.  In the branch
without a declared grid (lines 400-407) an empty assignment is stored and all
three cells are the string NaN. -/
def get_grid_search_results {V PG : Type} (param_grid : List (String × PG))
    (best_params_store : List (String × List (String × V)))
    (fit : GridFit V) (row_keys : List String) (scoring : String) :
    Except PyErr (List (String × Cell V) × List (String × List (String × V))) :=
  match row_keys.getLast? with
  | none => .error .indexError
  | some classifier_key =>
    if classifier_key ∈ odKeys param_grid then
      let best_params := fit.best_params_.foldl
        (fun d e => odInsert d (e.1.drop (classifier_key.length + 2)) e.2) []
      let store1 := odInsert best_params_store (param_key row_keys scoring) best_params
      let results := odInsert (odInsert (odInsert []
        ("grid_" ++ scoring ++ "_mean") (Cell.num fit.mean_test))
        ("grid_" ++ scoring ++ "_std") (Cell.num fit.std_test))
        ("grid_" ++ scoring ++ "_best_params") (Cell.paramsStr best_params)
      .ok (results, store1)
    else
      let store1 := odInsert best_params_store (param_key row_keys scoring) []
      let results := odInsert (odInsert (odInsert []
        ("grid_" ++ scoring ++ "_mean") (Cell.nan))
        ("grid_" ++ scoring ++ "_std") (Cell.nan))
        ("grid_" ++ scoring ++ "_best_params") (Cell.nan)
      .ok (results, store1)

/-- The collect_n loop of get_scores, core.py lines 458-466: at each pass run
cross_val_predict under the current random_state of eval_cv (abstracted as
predictF, a function of that seed; X, y and the pipeline are fixed), apply
the score function of the metric to y and the prediction (abstracted as
metricF applied to the prediction, y being fixed), append, then increment
random_state by one.  Returns the scores and the final seed value. -/
def collect_scores {P V : Type} (predictF : Int → P) (metricF : P → V) :
    Nat → Int → List V × Int
  | 0, seed => ([], seed)
  | n + 1, seed =>
    (metricF (predictF seed) :: (collect_scores predictF metricF n (seed + 1)).1,
     (collect_scores predictF metricF n (seed + 1)).2)

/-- Pipeliner.get_scores, core.py lines 409-469.  steps[-1] raises IndexError
on an empty row_keys list; self.best_params[param_key] raises KeyError when
the key was never stored.  If collect_n is falsy (None or 0) one
cross-validated scoring pass runs (cross_val_score, abstracted as the
per-fold vector cv_score, which reads but never mutates eval_cv); otherwise
the collect loop runs and afterwards random_state is reset to its saved
initial value.  The eval_cv generator state is its integer random_state,
returned alongside the scores. -/
def get_scores {P V : Type} (best_params_store : List (String × List (String × V)))
    (eval_cv : Int) (cv_score : List V) (predictF : Int → P) (metricF : P → V)
    (row_keys : List String) (scoring : String) (collect_n : Option Nat) :
    Except PyErr (List V × Int) :=
  if row_keys.isEmpty then .error .indexError else
  match odLookup best_params_store (param_key row_keys scoring) with
  | none => .error .keyError
  | some _ =>
    match collect_n with
    | none => .ok (cv_score, eval_cv)
    | some 0 => .ok (cv_score, eval_cv)
    | some (n + 1) =>
      let init_random_state := eval_cv
      let scores := (collect_scores predictF metricF (n + 1) eval_cv).1
      .ok (scores, init_random_state)

/-- The six per-metric result columns of get_results, in declaration order:
grid_steps then eval_steps, core.py lines 194-202. -/
def metric_columns (metric : String) : List String :=
  ["grid_" ++ metric ++ "_mean", "grid_" ++ metric ++ "_std",
   "grid_" ++ metric ++ "_best_params",
   "eval_" ++ metric ++ "_mean", "eval_" ++ metric ++ "_std",
   "eval_" ++ metric ++ "_scores"]

/-- The column list of the results DataFrame, core.py lines 189-204: the plan
columns, then for each requested metric the grid triple followed by the eval
triple. -/
def result_columns (plan_columns : List String) (scoring : List String) : List String :=
  plan_columns ++ (scoring.map metric_columns).flatten

/-- The per-metric cell writes of the get_results row loop, core.py lines
223-256: the three entries of the grid-search result dict are written in
dict order, then eval mean, eval std and the serialized scores string.  The
grid-search result and evaluation scores for this row are abstracted per
metric as gridValues (mean, std, best-params cell) and evalScores; meanF,
stdF and strF abstract numpy mean, numpy std and str. -/
def result_row_step {V : Type} (gridValues : String → V × V × V) (evalScores : String → List V)
    (meanF stdF strF : List V → V) (row : List (String × V)) (metric : String) : List (String × V) :=
  let g := gridValues metric
  let row1 := odInsert row ("grid_" ++ metric ++ "_mean") g.1
  let row2 := odInsert row1 ("grid_" ++ metric ++ "_std") g.2.1
  let row3 := odInsert row2 ("grid_" ++ metric ++ "_best_params") g.2.2
  let s := evalScores metric
  let row4 := odInsert row3 ("eval_" ++ metric ++ "_mean") (meanF s)
  let row5 := odInsert row4 ("eval_" ++ metric ++ "_std") (stdF s)
  odInsert row5 ("eval_" ++ metric ++ "_scores") (strF s)

/-- One result row: the plan cells of the row (its step-choice columns),
then the per-metric writes for every requested metric in order. -/
def result_row {V : Type} (plan_columns : List String) (scoring : List String)
    (gridValues : String → V × V × V) (evalScores : String → List V)
    (meanF stdF strF : List V → V) (plan_cells : List V) : List (String × V) :=
  scoring.foldl (result_row_step gridValues evalScores meanF stdF strF)
    (plan_columns.zip plan_cells)

/-- Pipeliner.get_results, core.py lines 146-259, at the table level: the
returned column list and, for each plan row index, the cells of that result
row.  The per-row per-metric grid-search and evaluation outputs are
abstracted as the oracles gridValues and evalScores indexed by row position;
a run that completes determines those six values per row and metric, and the
loop writes them into the cells of the row. -/
def get_results_table {V : Type} (plan_columns : List String) (plan : List (List V))
    (scoring : List String) (gridValues : Nat → String → V × V × V)
    (evalScores : Nat → String → List V) (meanF stdF strF : List V → V) :
    List String × List (List (String × V)) :=
  (result_columns plan_columns scoring,
   plan.enum.map (fun e =>
     result_row plan_columns scoring (gridValues e.1) (evalScores e.1) meanF stdF strF e.2))

theorem odLookup_odInsert_self {α : Type} (d : List (String × α)) (k : String) (v : α) :
    odLookup (odInsert d k v) k = some v := by
  induction d with
  | nil => simp [odInsert, odLookup]
  | cons e rest ih =>
    by_cases h : e.1 = k
    · simp [odInsert, h, odLookup]
    · simp [odInsert, h, odLookup, ih]

theorem odLookup_odInsert_ne {α : Type} (d : List (String × α)) (k' k : String) (v : α)
    (h : k' ≠ k) : odLookup (odInsert d k' v) k = odLookup d k := by
  induction d with
  | nil => simp [odInsert, odLookup, h]
  | cons e rest ih =>
    by_cases he : e.1 = k'
    · simp [odInsert, he, odLookup, h]
    · simp only [odInsert, if_neg he, odLookup, ih]

theorem odLookup_forall {α : Type} (P : α → Prop) (d : List (String × α))
    (h : ∀ e ∈ d, P e.2) (k : String) (v : α) (hl : odLookup d k = some v) : P v := by
  induction d with
  | nil => simp [odLookup] at hl
  | cons e rest ih =>
    by_cases he : e.1 = k
    · simp only [odLookup, if_pos he, Option.some.injEq] at hl
      exact hl ▸ h e (by simp)
    · simp only [odLookup, if_neg he] at hl
      exact ih (fun x hx => h x (by simp [hx])) hl

theorem mem_odInsert {α : Type} (d : List (String × α)) (k : String) (v : α) (e : String × α)
    (h : e ∈ odInsert d k v) : e = (k, v) ∨ e ∈ d := by
  induction d with
  | nil => simpa [odInsert] using h
  | cons e1 rest ih =>
    by_cases h1 : e1.1 = k
    · simp only [odInsert, if_pos h1, List.mem_cons] at h
      rcases h with h | h
      · exact Or.inl h
      · exact Or.inr (by simp [h])
    · simp only [odInsert, if_neg h1, List.mem_cons] at h
      rcases h with h | h
      · exact Or.inr (by simp [h])
      · rcases ih h with h2 | h2
        · exact Or.inl h2
        · exact Or.inr (by simp [h2])

theorem string_data_append (s t : String) : (s ++ t).data = s.data ++ t.data :=
  String.data_append s t

theorem string_eq_of_data (s t : String) (h : s.data = t.data) : s = t := by
  cases s; cases t; exact congrArg String.mk (by simpa using h)

theorem app_metric_inj (pre suf m1 m2 : String) (h : pre ++ m1 ++ suf = pre ++ m2 ++ suf) :
    m1 = m2 := by
  have hd := congrArg String.data h
  simp only [string_data_append] at hd
  exact string_eq_of_data _ _ (List.append_cancel_left (List.append_cancel_right hd))

theorem key_ne_of_last_char (pre1 m1 suf1 pre2 m2 suf2 : String) (c1 c2 : Char)
    (h1 : suf1.data.getLast? = some c1) (h2 : suf2.data.getLast? = some c2) (hne : c1 ≠ c2) :
    pre1 ++ m1 ++ suf1 ≠ pre2 ++ m2 ++ suf2 := by
  intro h
  have hd := congrArg (fun s => s.data.getLast?) h
  simp only [string_data_append] at hd
  have hn1 : suf1.data ≠ [] := by intro hnil; rw [hnil] at h1; simp at h1
  have hn2 : suf2.data ≠ [] := by intro hnil; rw [hnil] at h2; simp at h2
  rw [List.getLast?_append_of_ne_nil _ hn1, List.getLast?_append_of_ne_nil _ hn2, h1, h2] at hd
  exact hne (by injection hd)

theorem key_ne_of_head_char (pre1 m1 suf1 pre2 m2 suf2 : String) (c1 c2 : Char)
    (h1 : pre1.data.head? = some c1) (h2 : pre2.data.head? = some c2) (hne : c1 ≠ c2) :
    pre1 ++ m1 ++ suf1 ≠ pre2 ++ m2 ++ suf2 := by
  intro h
  have hd := congrArg (fun s => s.data.head?) h
  simp only [string_data_append] at hd
  obtain ⟨t1, ht1⟩ := List.head?_eq_some_iff.mp h1
  obtain ⟨t2, ht2⟩ := List.head?_eq_some_iff.mp h2
  rw [ht1, ht2] at hd
  simp only [List.cons_append, List.head?_cons, Option.some.injEq] at hd
  exact hne hd

theorem kne_gm_gs (m1 m2 : String) : "grid_" ++ m1 ++ "_mean" ≠ "grid_" ++ m2 ++ "_std" :=
  key_ne_of_last_char _ _ _ _ _ _ 'n' 'd' (by decide) (by decide) (by decide)

theorem kne_gm_gb (m1 m2 : String) : "grid_" ++ m1 ++ "_mean" ≠ "grid_" ++ m2 ++ "_best_params" :=
  key_ne_of_last_char _ _ _ _ _ _ 'n' 's' (by decide) (by decide) (by decide)

theorem kne_gm_em (m1 m2 : String) : "grid_" ++ m1 ++ "_mean" ≠ "eval_" ++ m2 ++ "_mean" :=
  key_ne_of_head_char _ _ _ _ _ _ 'g' 'e' (by decide) (by decide) (by decide)

theorem kne_gm_es (m1 m2 : String) : "grid_" ++ m1 ++ "_mean" ≠ "eval_" ++ m2 ++ "_std" :=
  key_ne_of_head_char _ _ _ _ _ _ 'g' 'e' (by decide) (by decide) (by decide)

theorem kne_gm_esc (m1 m2 : String) : "grid_" ++ m1 ++ "_mean" ≠ "eval_" ++ m2 ++ "_scores" :=
  key_ne_of_head_char _ _ _ _ _ _ 'g' 'e' (by decide) (by decide) (by decide)

theorem kne_gs_gb (m1 m2 : String) : "grid_" ++ m1 ++ "_std" ≠ "grid_" ++ m2 ++ "_best_params" :=
  key_ne_of_last_char _ _ _ _ _ _ 'd' 's' (by decide) (by decide) (by decide)

theorem kne_gs_em (m1 m2 : String) : "grid_" ++ m1 ++ "_std" ≠ "eval_" ++ m2 ++ "_mean" :=
  key_ne_of_head_char _ _ _ _ _ _ 'g' 'e' (by decide) (by decide) (by decide)

theorem kne_gs_es (m1 m2 : String) : "grid_" ++ m1 ++ "_std" ≠ "eval_" ++ m2 ++ "_std" :=
  key_ne_of_head_char _ _ _ _ _ _ 'g' 'e' (by decide) (by decide) (by decide)

theorem kne_gs_esc (m1 m2 : String) : "grid_" ++ m1 ++ "_std" ≠ "eval_" ++ m2 ++ "_scores" :=
  key_ne_of_head_char _ _ _ _ _ _ 'g' 'e' (by decide) (by decide) (by decide)

theorem kne_gb_em (m1 m2 : String) : "grid_" ++ m1 ++ "_best_params" ≠ "eval_" ++ m2 ++ "_mean" :=
  key_ne_of_head_char _ _ _ _ _ _ 'g' 'e' (by decide) (by decide) (by decide)

theorem kne_gb_es (m1 m2 : String) : "grid_" ++ m1 ++ "_best_params" ≠ "eval_" ++ m2 ++ "_std" :=
  key_ne_of_head_char _ _ _ _ _ _ 'g' 'e' (by decide) (by decide) (by decide)

theorem kne_gb_esc (m1 m2 : String) : "grid_" ++ m1 ++ "_best_params" ≠ "eval_" ++ m2 ++ "_scores" :=
  key_ne_of_head_char _ _ _ _ _ _ 'g' 'e' (by decide) (by decide) (by decide)

theorem kne_em_es (m1 m2 : String) : "eval_" ++ m1 ++ "_mean" ≠ "eval_" ++ m2 ++ "_std" :=
  key_ne_of_last_char _ _ _ _ _ _ 'n' 'd' (by decide) (by decide) (by decide)

theorem kne_em_esc (m1 m2 : String) : "eval_" ++ m1 ++ "_mean" ≠ "eval_" ++ m2 ++ "_scores" :=
  key_ne_of_last_char _ _ _ _ _ _ 'n' 's' (by decide) (by decide) (by decide)

theorem kne_es_esc (m1 m2 : String) : "eval_" ++ m1 ++ "_std" ≠ "eval_" ++ m2 ++ "_scores" :=
  key_ne_of_last_char _ _ _ _ _ _ 'd' 's' (by decide) (by decide) (by decide)

theorem kne_gm_gm (m1 m2 : String) (h : m1 ≠ m2) :
    "grid_" ++ m1 ++ "_mean" ≠ "grid_" ++ m2 ++ "_mean" :=
  fun e => h (app_metric_inj _ _ _ _ e)

theorem kne_gs_gs (m1 m2 : String) (h : m1 ≠ m2) :
    "grid_" ++ m1 ++ "_std" ≠ "grid_" ++ m2 ++ "_std" :=
  fun e => h (app_metric_inj _ _ _ _ e)

theorem kne_gb_gb (m1 m2 : String) (h : m1 ≠ m2) :
    "grid_" ++ m1 ++ "_best_params" ≠ "grid_" ++ m2 ++ "_best_params" :=
  fun e => h (app_metric_inj _ _ _ _ e)

theorem kne_em_em (m1 m2 : String) (h : m1 ≠ m2) :
    "eval_" ++ m1 ++ "_mean" ≠ "eval_" ++ m2 ++ "_mean" :=
  fun e => h (app_metric_inj _ _ _ _ e)

theorem kne_es_es (m1 m2 : String) (h : m1 ≠ m2) :
    "eval_" ++ m1 ++ "_std" ≠ "eval_" ++ m2 ++ "_std" :=
  fun e => h (app_metric_inj _ _ _ _ e)

theorem kne_esc_esc (m1 m2 : String) (h : m1 ≠ m2) :
    "eval_" ++ m1 ++ "_scores" ≠ "eval_" ++ m2 ++ "_scores" :=
  fun e => h (app_metric_inj _ _ _ _ e)

theorem collect_scores_final_seed {P V : Type} (predictF : Int → P) (metricF : P → V)
    (n : Nat) (s : Int) : (collect_scores predictF metricF n s).2 = s + n := by
  induction n generalizing s with
  | zero => simp [collect_scores]
  | succ k ih =>
    simp only [collect_scores, ih]
    omega

theorem collect_scores_length {P V : Type} (predictF : Int → P) (metricF : P → V)
    (n : Nat) (s : Int) : (collect_scores predictF metricF n s).1.length = n := by
  induction n generalizing s with
  | zero => simp [collect_scores]
  | succ k ih => simp [collect_scores, ih]

theorem collect_scores_get {P V : Type} (predictF : Int → P) (metricF : P → V)
    (n : Nat) (s : Int) (i : Nat) :
    (collect_scores predictF metricF n s).1.get? i =
      if i < n then some (metricF (predictF (s + i))) else none := by
  induction n generalizing s i with
  | zero => simp [collect_scores]
  | succ k ih =>
    cases i with
    | zero => simp [collect_scores]
    | succ j =>
      simp only [collect_scores, List.get?_cons_succ, ih]
      by_cases hj : j < k
      · have hj1 : j + 1 < k + 1 := by omega
        have harg : s + 1 + (j : Int) = s + ((j : Int) + 1) := by ring_nf
        simp only [if_pos hj, if_pos hj1, harg]
        norm_cast
      · have hj1 : ¬(j + 1 < k + 1) := by omega
        simp [hj, hj1]

/-- C1: on every call to transform_with_caching after the first, the cache
already holds the root entry init, so the source reaches
remove_unmatched_caching_X, whose first statement reads the unbound name cp
(line 289; the module imports copy, never cp).  The call therefore raises
NameError instead of performing the claimed prefix eviction and
recomputation.  Shown on a concrete run: the first call populates the cache
and succeeds, the identical second call fails. -/
theorem C1_second_call_raises :
    transform_with_caching (fun _ _ n => n + 1) ["Scaler"] 0 5 ["a"] ([] : List (String × Nat)) =
      .ok ([("init", 0), ("a", 1)], [("Scaler", "a")], 1, 5)
    ∧ transform_with_caching (fun _ _ n => n + 1) ["Scaler"] 0 5 ["a"] [("init", 0), ("a", 1)] =
      .error .nameError := by
  exact ⟨rfl, rfl⟩

/-- C2: two consecutive rows with cacheable name sequences a,b then a,c share
the prefix length p = 1; the claim says the position 1 transformer of the
second row is invoked again for the second row.  In the code the second row
raises NameError (unbound cp, line 289) before invoking any transformer: the
first call performs its two applications and succeeds, the second call
performs none. -/
theorem C2_second_row_raises :
    transform_with_caching (fun _ k l => l ++ [k]) ["S1", "S2"] ([] : List String) 0 ["a", "b"] [] =
      .ok ([("init", []), ("a", ["a"]), ("b", ["a", "b"])], [("S1", "a"), ("S2", "b")], ["a", "b"], 0)
    ∧ transform_with_caching (fun _ k l => l ++ [k]) ["S1", "S2"] ([] : List String) 0 ["a", "c"]
        [("init", []), ("a", ["a"]), ("b", ["a", "b"])] =
      .error .nameError := by
  exact ⟨rfl, rfl⟩

/-- C3: with one previously processed row the cache holds init and the row
chain; resolving the same row again should return the from-scratch result of
the full cacheable chain (scratch_transform), but the code raises NameError
(unbound cp, line 289) on every call whose history is nonempty.  The first
call agrees with scratch_transform; the second call returns no data at all. -/
theorem C3_second_call_not_scratch :
    transform_with_caching (fun _ k l => l ++ [k]) ["Sc"] ([] : List String) 0 ["a"] [] =
      .ok ([("init", []), ("a", ["a"])], [("Sc", "a")], scratch_transform (fun _ k l => l ++ [k]) ["Sc"] ["a"] [], 0)
    ∧ transform_with_caching (fun _ k l => l ++ [k]) ["Sc"] ([] : List String) 0 ["a"]
        [("init", []), ("a", ["a"])] =
      .error .nameError := by
  exact ⟨rfl, rfl⟩

/-- C9: the best-params key is the bare concatenation of the suffix names and
the metric name, so distinct suffixes collide: suffixes ab,c and a,bc with
metric f1 both produce the key abcf1.  A grid-search result persisted for the
first suffix is exactly the entry a later get_scores call reads for the
second suffix (here the call succeeds instead of raising KeyError). -/
theorem C9_key_collision :
    param_key ["ab", "c"] "f1" = param_key ["a", "bc"] "f1"
    ∧ (["ab", "c"] : List String) ≠ ["a", "bc"]
    ∧ get_grid_search_results ([] : List (String × Unit)) ([] : List (String × List (String × Nat)))
        ⟨[], 0, 0⟩ ["ab", "c"] "f1" =
        .ok ([("grid_f1_mean", Cell.nan), ("grid_f1_std", Cell.nan), ("grid_f1_best_params", Cell.nan)],
             [("abcf1", [])])
    ∧ odLookup [("abcf1", ([] : List (String × Nat)))] (param_key ["a", "bc"] "f1") = some []
    ∧ ∃ scores st, get_scores [("abcf1", ([] : List (String × Nat)))] 0 [0] (fun _ => 0)
        (fun _ => (0 : Nat)) ["a", "bc"] "f1" none = .ok (scores, st) := by
  exact ⟨rfl, by decide, rfl, rfl, [0], 0, rfl⟩

/-- C6: when the final-stage variant name of the row has no entry in
param_grid, get_grid_search_results returns the string sentinel NaN in the
three cells grid mean, grid std and grid best-params, returns no numeric cell
at all, and stores the empty parameter assignment under the concatenated
(suffix, metric) key. -/
theorem C6_grid_sentinel {V PG : Type} (param_grid : List (String × PG))
    (store : List (String × List (String × V))) (fit : GridFit V)
    (row_keys : List String) (scoring : String) (classifier_key : String)
    (hlast : row_keys.getLast? = some classifier_key)
    (hng : classifier_key ∉ odKeys param_grid) :
    ∃ results store1,
      get_grid_search_results param_grid store fit row_keys scoring = .ok (results, store1)
      ∧ odLookup results ("grid_" ++ scoring ++ "_mean") = some Cell.nan
      ∧ odLookup results ("grid_" ++ scoring ++ "_std") = some Cell.nan
      ∧ odLookup results ("grid_" ++ scoring ++ "_best_params") = some Cell.nan
      ∧ (∀ k c, odLookup results k = some c → c = Cell.nan)
      ∧ odLookup store1 (param_key row_keys scoring) = some [] := by
  refine ⟨odInsert (odInsert (odInsert [] ("grid_" ++ scoring ++ "_mean") Cell.nan)
      ("grid_" ++ scoring ++ "_std") Cell.nan) ("grid_" ++ scoring ++ "_best_params") Cell.nan,
    odInsert store (param_key row_keys scoring) [], ?_, ?_, ?_, ?_, ?_, ?_⟩
  · simp [get_grid_search_results, hlast, hng]
  · rw [odLookup_odInsert_ne _ _ _ _ (Ne.symm (kne_gm_gb scoring scoring)),
        odLookup_odInsert_ne _ _ _ _ (Ne.symm (kne_gm_gs scoring scoring)),
        odLookup_odInsert_self]
  · rw [odLookup_odInsert_ne _ _ _ _ (Ne.symm (kne_gs_gb scoring scoring)),
        odLookup_odInsert_self]
  · rw [odLookup_odInsert_self]
  · intro k c hl
    refine odLookup_forall (fun c => c = Cell.nan) _ ?_ k c hl
    intro e he
    rcases mem_odInsert _ _ _ _ he with rfl | he1
    · rfl
    rcases mem_odInsert _ _ _ _ he1 with rfl | he2
    · rfl
    rcases mem_odInsert _ _ _ _ he2 with rfl | he3
    · rfl
    · simp at he3
  · exact odLookup_odInsert_self _ _ _

/-- C6 witness: a concrete call with no declared grid for the classifier. -/
theorem C6_grid_sentinel_witness :
    (["sc", "clf"] : List String).getLast? = some "clf"
    ∧ "clf" ∉ odKeys ([("other", ())] : List (String × Unit))
    ∧ ∃ results store1,
      get_grid_search_results [("other", ())] ([] : List (String × List (String × Nat)))
        ⟨[], 0, 0⟩ ["sc", "clf"] "acc" = .ok (results, store1)
      ∧ odLookup results ("grid_" ++ "acc" ++ "_mean") = some Cell.nan
      ∧ odLookup results ("grid_" ++ "acc" ++ "_std") = some Cell.nan
      ∧ odLookup results ("grid_" ++ "acc" ++ "_best_params") = some Cell.nan
      ∧ (∀ k c, odLookup results k = some c → c = Cell.nan)
      ∧ odLookup store1 (param_key ["sc", "clf"] "acc") = some [] :=
  ⟨rfl, by decide,
   C6_grid_sentinel [("other", ())] [] ⟨[], 0, 0⟩ ["sc", "clf"] "acc" "clf" rfl (by decide)⟩

/-- C7: for every get_scores call with a positive repeat count N that returns,
the eval_cv random_state after the call equals its value before the call,
although the collect loop, which increments the seed by one after each of its
N passes, leaves off at seed + N just before the final restoration. -/
theorem C7_seed_restored {P V : Type} (store : List (String × List (String × V)))
    (eval_cv : Int) (cv_score : List V) (predictF : Int → P) (metricF : P → V)
    (row_keys : List String) (scoring : String) (N : Nat) (hN : 0 < N)
    (hrk : row_keys ≠ []) (bp : List (String × V))
    (hbp : odLookup store (param_key row_keys scoring) = some bp) :
    (∃ scores, get_scores store eval_cv cv_score predictF metricF row_keys scoring (some N) =
      .ok (scores, eval_cv))
    ∧ (collect_scores predictF metricF N eval_cv).2 = eval_cv + N := by
  obtain ⟨n, rfl⟩ : ∃ n, N = n + 1 := ⟨N - 1, by omega⟩
  constructor
  · refine ⟨(collect_scores predictF metricF (n + 1) eval_cv).1, ?_⟩
    cases row_keys with
    | nil => exact absurd rfl hrk
    | cons a l => simp [get_scores, hbp]
  · exact collect_scores_final_seed predictF metricF (n + 1) eval_cv

/-- C7 witness: a concrete repeated evaluation with N = 3 and seed 42. -/
theorem C7_seed_restored_witness :
    0 < 3 ∧ (["clf"] : List String) ≠ []
    ∧ odLookup [("clfacc", ([] : List (String × Nat)))] (param_key ["clf"] "acc") = some []
    ∧ ((∃ scores, get_scores [("clfacc", ([] : List (String × Nat)))] 42 [7] (fun s => s)
        (fun p => p.toNat) ["clf"] "acc" (some 3) = .ok (scores, 42))
      ∧ (collect_scores (fun s => s) (fun p : Int => p.toNat) 3 42).2 = 42 + 3) :=
  ⟨by decide, by decide, rfl,
   C7_seed_restored [("clfacc", [])] 42 [7] (fun s => s) (fun p => p.toNat) ["clf"] "acc" 3
     (by decide) (by decide) [] rfl⟩

/-- C8: a get_scores call with a positive repeat count N that returns yields
exactly N scalar scores, the i-th obtained by the cross-validated prediction
pass under seed base + i followed by the metric score function applied to the
prediction (with the fixed true labels). -/
theorem C8_collected_scores {P V : Type} (store : List (String × List (String × V)))
    (eval_cv : Int) (cv_score : List V) (predictF : Int → P) (metricF : P → V)
    (row_keys : List String) (scoring : String) (N : Nat) (hN : 0 < N)
    (hrk : row_keys ≠ []) (bp : List (String × V))
    (hbp : odLookup store (param_key row_keys scoring) = some bp) :
    ∃ scores, get_scores store eval_cv cv_score predictF metricF row_keys scoring (some N) =
      .ok (scores, eval_cv)
      ∧ scores.length = N
      ∧ ∀ i, i < N → scores.get? i = some (metricF (predictF (eval_cv + i))) := by
  obtain ⟨n, rfl⟩ : ∃ n, N = n + 1 := ⟨N - 1, by omega⟩
  refine ⟨(collect_scores predictF metricF (n + 1) eval_cv).1, ?_,
    collect_scores_length predictF metricF (n + 1) eval_cv, ?_⟩
  · cases row_keys with
    | nil => exact absurd rfl hrk
    | cons a l => simp [get_scores, hbp]
  · intro i hi
    rw [collect_scores_get]
    simp [hi]

/-- C8 witness: N = 2, base seed 10: the scores are the metric of the
predictions under seeds 10 and 11. -/
theorem C8_collected_scores_witness :
    0 < 2 ∧ (["clf"] : List String) ≠ []
    ∧ odLookup [("clfacc", ([] : List (String × Nat)))] (param_key ["clf"] "acc") = some []
    ∧ ∃ scores, get_scores [("clfacc", ([] : List (String × Nat)))] 10 [7] (fun s => s)
        (fun p : Int => p.toNat) ["clf"] "acc" (some 2) = .ok (scores, 10)
      ∧ scores.length = 2
      ∧ ∀ i, i < 2 → scores.get? i = some ((10 + (i : Int)).toNat) :=
  ⟨by decide, by decide, rfl,
   C8_collected_scores [("clfacc", [])] 10 [7] (fun s => s) (fun p => p.toNat) ["clf"] "acc" 2
     (by decide) (by decide) [] rfl⟩

/-- C10: collect_n = 0 is falsy in the Python condition, so get_scores takes
the single-evaluation branch exactly as with collect_n = None, returning the
per-fold score vector of one cross-validated scoring pass; a repeat count of
zero never yields an empty score list. -/
theorem C10_zero_collect {P V : Type} (store : List (String × List (String × V)))
    (eval_cv : Int) (cv_score : List V) (predictF : Int → P) (metricF : P → V)
    (row_keys : List String) (scoring : String)
    (hrk : row_keys ≠ []) (bp : List (String × V))
    (hbp : odLookup store (param_key row_keys scoring) = some bp)
    (hcv : cv_score ≠ []) :
    get_scores store eval_cv cv_score predictF metricF row_keys scoring (some 0) =
      get_scores store eval_cv cv_score predictF metricF row_keys scoring none
    ∧ get_scores store eval_cv cv_score predictF metricF row_keys scoring (some 0) =
      .ok (cv_score, eval_cv)
    ∧ ∀ scores st, get_scores store eval_cv cv_score predictF metricF row_keys scoring (some 0) =
        .ok (scores, st) → scores ≠ [] := by
  refine ⟨?_, ?_, ?_⟩
  · cases row_keys with
    | nil => exact absurd rfl hrk
    | cons a l => simp [get_scores, hbp]
  · cases row_keys with
    | nil => exact absurd rfl hrk
    | cons a l => simp [get_scores, hbp]
  · cases row_keys with
    | nil => exact absurd rfl hrk
    | cons a l =>
      intro scores st h
      simp only [get_scores, List.isEmpty_cons, Bool.false_eq_true, if_false, hbp] at h
      rw [Except.ok.injEq, Prod.mk.injEq] at h
      rcases h with ⟨h1, h2⟩
      rw [← h1]
      exact hcv

/-- C10 witness: a concrete call with collect_n = 0. -/
theorem C10_zero_collect_witness :
    (["clf"] : List String) ≠ []
    ∧ odLookup [("clfacc", ([] : List (String × Nat)))] (param_key ["clf"] "acc") = some []
    ∧ ([7] : List Nat) ≠ []
    ∧ (get_scores [("clfacc", ([] : List (String × Nat)))] 4 [7] (fun s => s)
        (fun p : Int => p.toNat) ["clf"] "acc" (some 0) =
      get_scores [("clfacc", [])] 4 [7] (fun s => s) (fun p => p.toNat) ["clf"] "acc" none
    ∧ get_scores [("clfacc", [])] 4 [7] (fun s => s) (fun p => p.toNat) ["clf"] "acc" (some 0) =
      .ok ([7], 4)
    ∧ ∀ scores st, get_scores [("clfacc", [])] 4 [7] (fun s => s) (fun p => p.toNat) ["clf"] "acc"
        (some 0) = .ok (scores, st) → scores ≠ []) :=
  ⟨by decide, rfl, by decide,
   C10_zero_collect [("clfacc", [])] 4 [7] (fun s => s) (fun p => p.toNat) ["clf"] "acc"
     (by decide) [] rfl (by decide)⟩

theorem odInsert_of_not_mem {α : Type} (d : List (String × α)) (k : String) (v : α)
    (h : k ∉ odKeys d) : odInsert d k v = d ++ [(k, v)] := by
  induction d with
  | nil => simp [odInsert]
  | cons e rest ih =>
    simp only [odKeys, List.map_cons, List.mem_cons] at h
    push_neg at h
    have hne : ¬(e.1 = k) := fun he => h.1 he.symm
    simp only [odInsert, if_neg hne, List.cons_append, List.cons.injEq, true_and]
    exact ih (by simpa [odKeys] using h.2)

theorem odFromList_go {α : Type} (l : List (String × α)) :
    ∀ acc : List (String × α), ((acc ++ l).map Prod.fst).Nodup →
    l.foldl (fun d e => odInsert d e.1 e.2) acc = acc ++ l := by
  induction l with
  | nil => intro acc _; simp
  | cons e rest ih =>
    intro acc h
    have h2 : (((acc ++ [e]) ++ rest).map Prod.fst).Nodup := by
      rwa [List.append_cons] at h
    have hnot : e.1 ∉ odKeys acc := by
      simp only [List.map_append, List.nodup_append] at h
      intro hm
      exact h.2.2 hm (by simp)
    rw [List.foldl_cons, odInsert_of_not_mem _ _ _ hnot, ih _ h2, ← List.append_cons]

theorem odFromList_eq_self {α : Type} (l : List (String × α)) (h : (l.map Prod.fst).Nodup) :
    odFromList l = l := by
  have := odFromList_go l [] (by simpa using h)
  simpa [odFromList] using this

theorem pipelinerColumnKeys_eq {T : Type} (steps : List (String × List (String × T)))
    (h1 : (steps.map Prod.fst).Nodup) (h2 : ∀ s ∈ steps, (s.2.map Prod.fst).Nodup) :
    pipelinerColumnKeys steps = steps.map (fun s => s.2.map Prod.fst) := by
  unfold pipelinerColumnKeys
  rw [odFromList_eq_self steps h1]
  exact List.map_congr_left (fun s hs => by rw [odFromList_eq_self s.2 (h2 s hs)]; rfl)

theorem pyProduct_length (ls : List (List String)) :
    (pyProduct ls).length = (ls.map List.length).prod := by
  induction ls with
  | nil => rfl
  | cons l rest ih =>
    simp [pyProduct, List.length_flatMap, Function.comp_def, ih, List.map_const',
      List.sum_replicate, smul_eq_mul]

theorem accept_eq_decide (row : List String) (bc : String × String) :
    accept_from_banned_combos row bc = decide (¬(bc.1 ∈ row ∧ bc.2 ∈ row)) := by
  by_cases h : bc.1 ∈ row ∧ bc.2 ∈ row
  · simp [accept_from_banned_combos, h]
  · simp [accept_from_banned_combos, h]

theorem banned_all_eq (banned : List (String × String)) (row : List String) :
    (banned.all (accept_from_banned_combos row)) =
      decide (∀ bc ∈ banned, ¬(bc.1 ∈ row ∧ bc.2 ∈ row)) := by
  induction banned with
  | nil => simp
  | cons bc rest ih =>
    rw [List.all_cons, accept_eq_decide, ih, ← Bool.decide_and]
    exact decide_eq_decide.mpr (by rw [List.forall_mem_cons])

theorem plan_rows_spec (ck : List (List String)) (banned : List (String × String)) :
    plan_rows ck banned =
      (pyProduct ck).filter (fun row => decide (∀ bc ∈ banned, ¬(bc.1 ∈ row ∧ bc.2 ∈ row)))
    ∧ (∀ row ∈ plan_rows ck banned, ∀ bc ∈ banned, ¬(bc.1 ∈ row ∧ bc.2 ∈ row))
    ∧ (plan_rows ck banned).Sublist (pyProduct ck)
    ∧ (plan_rows ck banned).length ≤ (ck.map List.length).prod
    ∧ ((plan_rows ck banned).length = (ck.map List.length).prod ↔
        ∀ row ∈ pyProduct ck, ∀ bc ∈ banned, ¬(bc.1 ∈ row ∧ bc.2 ∈ row)) := by
  refine ⟨?_, ?_, ?_, ?_, ?_⟩
  · exact List.filter_congr (fun row _ => banned_all_eq banned row)
  · intro row hrow
    have := (List.mem_filter.mp hrow).2
    rw [banned_all_eq] at this
    exact of_decide_eq_true this
  · exact List.filter_sublist _
  · calc (plan_rows ck banned).length ≤ (pyProduct ck).length := List.length_filter_le _ _
      _ = (ck.map List.length).prod := pyProduct_length ck
  · rw [plan_rows, ← pyProduct_length, List.filter_length_eq_length]
    constructor
    · intro hall row hrow
      have := hall row hrow
      rw [banned_all_eq] at this
      exact of_decide_eq_true this
    · intro hall row hrow
      rw [banned_all_eq]
      exact decide_eq_true (hall row hrow)

/-- C5: under the declared unique names, the plan table built at construction
is the Cartesian product of the variant-name lists of the steps, in product
order, with exactly the candidate rows containing both names of some banned
combo removed; the survivors keep the product order (sublist), no banned pair
occurs in any kept row, and the row count is at most the product of the
variant counts, with equality iff no banned combo ever matches a candidate
row. -/
theorem C5_plan_table {T : Type} (steps : List (String × List (String × T)))
    (banned_combos : List (String × String))
    (h1 : (steps.map Prod.fst).Nodup)
    (h2 : ∀ s ∈ steps, (s.2.map Prod.fst).Nodup) :
    pipelinerPlan steps banned_combos =
      (pyProduct (steps.map (fun s => s.2.map Prod.fst))).filter
        (fun row => decide (∀ bc ∈ banned_combos, ¬(bc.1 ∈ row ∧ bc.2 ∈ row)))
    ∧ (∀ row ∈ pipelinerPlan steps banned_combos,
        ∀ bc ∈ banned_combos, ¬(bc.1 ∈ row ∧ bc.2 ∈ row))
    ∧ (pipelinerPlan steps banned_combos).Sublist
        (pyProduct (steps.map (fun s => s.2.map Prod.fst)))
    ∧ (pipelinerPlan steps banned_combos).length ≤ (steps.map (fun s => s.2.length)).prod
    ∧ ((pipelinerPlan steps banned_combos).length = (steps.map (fun s => s.2.length)).prod ↔
        ∀ row ∈ pyProduct (steps.map (fun s => s.2.map Prod.fst)),
          ∀ bc ∈ banned_combos, ¬(bc.1 ∈ row ∧ bc.2 ∈ row)) := by
  have hck := pipelinerColumnKeys_eq steps h1 h2
  have hlen : ((steps.map (fun s => s.2.map Prod.fst)).map List.length).prod =
      (steps.map (fun s => s.2.length)).prod := by
    simp [List.map_map, Function.comp_def]
  have hspec := plan_rows_spec (steps.map (fun s => s.2.map Prod.fst)) banned_combos
  have hplan : pipelinerPlan steps banned_combos =
      plan_rows (steps.map (fun s => s.2.map Prod.fst)) banned_combos := by
    rw [pipelinerPlan, hck]
  rw [hplan, ← hlen]
  exact hspec

/-- C5 witness: the spec example, Scaler in minmax and standard crossed with
Classifier in LR and SVC, with the combination standard with SVC banned. -/
theorem C5_plan_table_witness :
    (([("Scaler", [("minmax", 0), ("standard", 0)]), ("Classifier", [("LR", 0), ("SVC", 0)])] :
        List (String × List (String × Nat))).map Prod.fst).Nodup
    ∧ (∀ s ∈ ([("Scaler", [("minmax", 0), ("standard", 0)]),
        ("Classifier", [("LR", 0), ("SVC", 0)])] : List (String × List (String × Nat))),
        (s.2.map Prod.fst).Nodup)
    ∧ (pipelinerPlan
        ([("Scaler", [("minmax", 0), ("standard", 0)]), ("Classifier", [("LR", 0), ("SVC", 0)])] :
          List (String × List (String × Nat))) [("standard", "SVC")] =
        (pyProduct (([("Scaler", [("minmax", 0), ("standard", 0)]),
            ("Classifier", [("LR", 0), ("SVC", 0)])] :
            List (String × List (String × Nat))).map (fun s => s.2.map Prod.fst))).filter
          (fun row => decide (∀ bc ∈ [("standard", "SVC")], ¬(bc.1 ∈ row ∧ bc.2 ∈ row)))
      ∧ (∀ row ∈ pipelinerPlan
          ([("Scaler", [("minmax", 0), ("standard", 0)]), ("Classifier", [("LR", 0), ("SVC", 0)])] :
            List (String × List (String × Nat))) [("standard", "SVC")],
          ∀ bc ∈ [("standard", "SVC")], ¬(bc.1 ∈ row ∧ bc.2 ∈ row))
      ∧ (pipelinerPlan
          ([("Scaler", [("minmax", 0), ("standard", 0)]), ("Classifier", [("LR", 0), ("SVC", 0)])] :
            List (String × List (String × Nat))) [("standard", "SVC")]).Sublist
          (pyProduct (([("Scaler", [("minmax", 0), ("standard", 0)]),
            ("Classifier", [("LR", 0), ("SVC", 0)])] :
            List (String × List (String × Nat))).map (fun s => s.2.map Prod.fst)))
      ∧ (pipelinerPlan
          ([("Scaler", [("minmax", 0), ("standard", 0)]), ("Classifier", [("LR", 0), ("SVC", 0)])] :
            List (String × List (String × Nat))) [("standard", "SVC")]).length ≤
          (([("Scaler", [("minmax", 0), ("standard", 0)]), ("Classifier", [("LR", 0), ("SVC", 0)])] :
            List (String × List (String × Nat))).map (fun s => s.2.length)).prod
      ∧ ((pipelinerPlan
          ([("Scaler", [("minmax", 0), ("standard", 0)]), ("Classifier", [("LR", 0), ("SVC", 0)])] :
            List (String × List (String × Nat))) [("standard", "SVC")]).length =
          (([("Scaler", [("minmax", 0), ("standard", 0)]), ("Classifier", [("LR", 0), ("SVC", 0)])] :
            List (String × List (String × Nat))).map (fun s => s.2.length)).prod ↔
          ∀ row ∈ pyProduct (([("Scaler", [("minmax", 0), ("standard", 0)]),
            ("Classifier", [("LR", 0), ("SVC", 0)])] :
            List (String × List (String × Nat))).map (fun s => s.2.map Prod.fst)),
            ∀ bc ∈ [("standard", "SVC")], ¬(bc.1 ∈ row ∧ bc.2 ∈ row))) :=
  ⟨by decide, by decide,
   C5_plan_table [("Scaler", [("minmax", 0), ("standard", 0)]),
     ("Classifier", [("LR", 0), ("SVC", 0)])] [("standard", "SVC")] (by decide) (by decide)⟩

theorem metric_columns_disjoint (m m' : String) (hne : m ≠ m') (k : String)
    (hk : k ∈ metric_columns m) : k ∉ metric_columns m' := by
  simp only [metric_columns, List.mem_cons, List.not_mem_nil, or_false] at hk ⊢
  push_neg
  rcases hk with rfl | rfl | rfl | rfl | rfl | rfl
  · exact ⟨kne_gm_gm m m' hne, kne_gm_gs m m', kne_gm_gb m m', kne_gm_em m m',
      kne_gm_es m m', kne_gm_esc m m'⟩
  · exact ⟨Ne.symm (kne_gm_gs m' m), kne_gs_gs m m' hne, kne_gs_gb m m', kne_gs_em m m',
      kne_gs_es m m', kne_gs_esc m m'⟩
  · exact ⟨Ne.symm (kne_gm_gb m' m), Ne.symm (kne_gs_gb m' m), kne_gb_gb m m' hne,
      kne_gb_em m m', kne_gb_es m m', kne_gb_esc m m'⟩
  · exact ⟨Ne.symm (kne_gm_em m' m), Ne.symm (kne_gs_em m' m), Ne.symm (kne_gb_em m' m),
      kne_em_em m m' hne, kne_em_es m m', kne_em_esc m m'⟩
  · exact ⟨Ne.symm (kne_gm_es m' m), Ne.symm (kne_gs_es m' m), Ne.symm (kne_gb_es m' m),
      Ne.symm (kne_em_es m' m), kne_es_es m m' hne, kne_es_esc m m'⟩
  · exact ⟨Ne.symm (kne_gm_esc m' m), Ne.symm (kne_gs_esc m' m), Ne.symm (kne_gb_esc m' m),
      Ne.symm (kne_em_esc m' m), Ne.symm (kne_es_esc m' m), kne_esc_esc m m' hne⟩

theorem result_row_step_preserved {V : Type} (gridValues : String → V × V × V)
    (evalScores : String → List V) (meanF stdF strF : List V → V)
    (row : List (String × V)) (m' k : String) (hk : k ∉ metric_columns m') :
    odLookup (result_row_step gridValues evalScores meanF stdF strF row m') k =
      odLookup row k := by
  simp only [metric_columns, List.mem_cons, List.not_mem_nil, or_false] at hk
  push_neg at hk
  obtain ⟨h1, h2, h3, h4, h5, h6⟩ := hk
  simp only [result_row_step]
  rw [odLookup_odInsert_ne _ _ _ _ (Ne.symm h6), odLookup_odInsert_ne _ _ _ _ (Ne.symm h5),
    odLookup_odInsert_ne _ _ _ _ (Ne.symm h4), odLookup_odInsert_ne _ _ _ _ (Ne.symm h3),
    odLookup_odInsert_ne _ _ _ _ (Ne.symm h2), odLookup_odInsert_ne _ _ _ _ (Ne.symm h1)]

theorem result_row_fold_preserved {V : Type} (gridValues : String → V × V × V)
    (evalScores : String → List V) (meanF stdF strF : List V → V)
    (sc : List String) (k : String) (hk : ∀ m' ∈ sc, k ∉ metric_columns m') :
    ∀ row : List (String × V),
      odLookup (sc.foldl (result_row_step gridValues evalScores meanF stdF strF) row) k =
        odLookup row k := by
  induction sc with
  | nil => intro row; rfl
  | cons m' rest ih =>
    intro row
    rw [List.foldl_cons, ih (fun x hx => hk x (List.mem_cons_of_mem _ hx)),
      result_row_step_preserved _ _ _ _ _ _ _ _ (hk m' (List.mem_cons_self _ _))]

theorem result_row_step_self {V : Type} (gridValues : String → V × V × V)
    (evalScores : String → List V) (meanF stdF strF : List V → V)
    (row : List (String × V)) (m : String) :
    odLookup (result_row_step gridValues evalScores meanF stdF strF row m)
        ("grid_" ++ m ++ "_mean") = some (gridValues m).1
    ∧ odLookup (result_row_step gridValues evalScores meanF stdF strF row m)
        ("grid_" ++ m ++ "_std") = some (gridValues m).2.1
    ∧ odLookup (result_row_step gridValues evalScores meanF stdF strF row m)
        ("grid_" ++ m ++ "_best_params") = some (gridValues m).2.2
    ∧ odLookup (result_row_step gridValues evalScores meanF stdF strF row m)
        ("eval_" ++ m ++ "_mean") = some (meanF (evalScores m))
    ∧ odLookup (result_row_step gridValues evalScores meanF stdF strF row m)
        ("eval_" ++ m ++ "_std") = some (stdF (evalScores m))
    ∧ odLookup (result_row_step gridValues evalScores meanF stdF strF row m)
        ("eval_" ++ m ++ "_scores") = some (strF (evalScores m)) := by
  simp only [result_row_step]
  refine ⟨?_, ?_, ?_, ?_, ?_, ?_⟩
  · rw [odLookup_odInsert_ne _ _ _ _ (Ne.symm (kne_gm_esc m m)),
      odLookup_odInsert_ne _ _ _ _ (Ne.symm (kne_gm_es m m)),
      odLookup_odInsert_ne _ _ _ _ (Ne.symm (kne_gm_em m m)),
      odLookup_odInsert_ne _ _ _ _ (Ne.symm (kne_gm_gb m m)),
      odLookup_odInsert_ne _ _ _ _ (Ne.symm (kne_gm_gs m m)),
      odLookup_odInsert_self]
  · rw [odLookup_odInsert_ne _ _ _ _ (Ne.symm (kne_gs_esc m m)),
      odLookup_odInsert_ne _ _ _ _ (Ne.symm (kne_gs_es m m)),
      odLookup_odInsert_ne _ _ _ _ (Ne.symm (kne_gs_em m m)),
      odLookup_odInsert_ne _ _ _ _ (Ne.symm (kne_gs_gb m m)),
      odLookup_odInsert_self]
  · rw [odLookup_odInsert_ne _ _ _ _ (Ne.symm (kne_gb_esc m m)),
      odLookup_odInsert_ne _ _ _ _ (Ne.symm (kne_gb_es m m)),
      odLookup_odInsert_ne _ _ _ _ (Ne.symm (kne_gb_em m m)),
      odLookup_odInsert_self]
  · rw [odLookup_odInsert_ne _ _ _ _ (Ne.symm (kne_em_esc m m)),
      odLookup_odInsert_ne _ _ _ _ (Ne.symm (kne_em_es m m)),
      odLookup_odInsert_self]
  · rw [odLookup_odInsert_ne _ _ _ _ (Ne.symm (kne_es_esc m m)),
      odLookup_odInsert_self]
  · rw [odLookup_odInsert_self]

theorem result_row_fold_lookup {V : Type} (gridValues : String → V × V × V)
    (evalScores : String → List V) (meanF stdF strF : List V → V) (sc : List String) :
    ∀ m : String, m ∈ sc → sc.Nodup → ∀ row : List (String × V),
      odLookup (sc.foldl (result_row_step gridValues evalScores meanF stdF strF) row)
          ("grid_" ++ m ++ "_mean") = some (gridValues m).1
      ∧ odLookup (sc.foldl (result_row_step gridValues evalScores meanF stdF strF) row)
          ("grid_" ++ m ++ "_std") = some (gridValues m).2.1
      ∧ odLookup (sc.foldl (result_row_step gridValues evalScores meanF stdF strF) row)
          ("grid_" ++ m ++ "_best_params") = some (gridValues m).2.2
      ∧ odLookup (sc.foldl (result_row_step gridValues evalScores meanF stdF strF) row)
          ("eval_" ++ m ++ "_mean") = some (meanF (evalScores m))
      ∧ odLookup (sc.foldl (result_row_step gridValues evalScores meanF stdF strF) row)
          ("eval_" ++ m ++ "_std") = some (stdF (evalScores m))
      ∧ odLookup (sc.foldl (result_row_step gridValues evalScores meanF stdF strF) row)
          ("eval_" ++ m ++ "_scores") = some (strF (evalScores m)) := by
  induction sc with
  | nil => intro m hm; cases hm
  | cons m1 rest ih =>
    intro m hm hnd row
    rcases List.mem_cons.mp hm with rfl | hm'
    · have hnotin : m ∉ rest := (List.nodup_cons.mp hnd).1
      have hpres : ∀ k, k ∈ metric_columns m →
          odLookup (rest.foldl (result_row_step gridValues evalScores meanF stdF strF)
            (result_row_step gridValues evalScores meanF stdF strF row m)) k =
          odLookup (result_row_step gridValues evalScores meanF stdF strF row m) k := by
        intro k hkm
        refine result_row_fold_preserved _ _ _ _ _ rest k ?_ _
        intro m' hm'r
        exact metric_columns_disjoint m m' (fun e => hnotin (by rw [e]; exact hm'r)) k hkm
      have hstep := result_row_step_self gridValues evalScores meanF stdF strF row m
      rw [List.foldl_cons]
      refine ⟨?_, ?_, ?_, ?_, ?_, ?_⟩
      · rw [hpres _ (by simp [metric_columns])]; exact hstep.1
      · rw [hpres _ (by simp [metric_columns])]; exact hstep.2.1
      · rw [hpres _ (by simp [metric_columns])]; exact hstep.2.2.1
      · rw [hpres _ (by simp [metric_columns])]; exact hstep.2.2.2.1
      · rw [hpres _ (by simp [metric_columns])]; exact hstep.2.2.2.2.1
      · rw [hpres _ (by simp [metric_columns])]; exact hstep.2.2.2.2.2
    · rw [List.foldl_cons]
      exact ih m hm' (List.nodup_cons.mp hnd).2
        (result_row_step gridValues evalScores meanF stdF strF row m1)

theorem enum_get {γ : Type} (l : List γ) (i : Nat) :
    l.enum.get? i = (l.get? i).map (fun a => (i, a)) := by
  simp [List.enum]

/-- C4: for a run of get_results that completes, the table has the plan
step-choice columns followed, per requested metric, by the grid mean, std and
best-params columns and then the eval mean, std and scores columns; the table
has one row per plan row, and in each row the six per-metric cells hold
exactly the values the grid search and the evaluation produced for that row
and metric (the scores list serialized by strF), while the step-choice cells
keep the plan values. -/
theorem C4_get_results {V : Type} (plan_columns : List String) (plan : List (List V))
    (scoring : List String) (gridValues : Nat → String → V × V × V)
    (evalScores : Nat → String → List V) (meanF stdF strF : List V → V)
    (m : String) (hm : m ∈ scoring) (hnd : scoring.Nodup)
    (idx : Nat) (cells : List V) (hidx : plan.get? idx = some cells) :
    (get_results_table plan_columns plan scoring gridValues evalScores meanF stdF strF).1 =
      plan_columns ++ (scoring.map metric_columns).flatten
    ∧ (get_results_table plan_columns plan scoring gridValues evalScores meanF stdF strF).2.length =
      plan.length
    ∧ (get_results_table plan_columns plan scoring gridValues evalScores meanF stdF strF).2.get? idx =
      some (result_row plan_columns scoring (gridValues idx) (evalScores idx) meanF stdF strF cells)
    ∧ odLookup (result_row plan_columns scoring (gridValues idx) (evalScores idx) meanF stdF strF cells)
        ("grid_" ++ m ++ "_mean") = some (gridValues idx m).1
    ∧ odLookup (result_row plan_columns scoring (gridValues idx) (evalScores idx) meanF stdF strF cells)
        ("grid_" ++ m ++ "_std") = some (gridValues idx m).2.1
    ∧ odLookup (result_row plan_columns scoring (gridValues idx) (evalScores idx) meanF stdF strF cells)
        ("grid_" ++ m ++ "_best_params") = some (gridValues idx m).2.2
    ∧ odLookup (result_row plan_columns scoring (gridValues idx) (evalScores idx) meanF stdF strF cells)
        ("eval_" ++ m ++ "_mean") = some (meanF (evalScores idx m))
    ∧ odLookup (result_row plan_columns scoring (gridValues idx) (evalScores idx) meanF stdF strF cells)
        ("eval_" ++ m ++ "_std") = some (stdF (evalScores idx m))
    ∧ odLookup (result_row plan_columns scoring (gridValues idx) (evalScores idx) meanF stdF strF cells)
        ("eval_" ++ m ++ "_scores") = some (strF (evalScores idx m))
    ∧ ∀ c, c ∉ (scoring.map metric_columns).flatten →
        odLookup (result_row plan_columns scoring (gridValues idx) (evalScores idx) meanF stdF strF cells) c =
        odLookup (plan_columns.zip cells) c := by
  have hfold := result_row_fold_lookup (gridValues idx) (evalScores idx) meanF stdF strF
    scoring m hm hnd (plan_columns.zip cells)
  refine ⟨rfl, ?_, ?_, hfold.1, hfold.2.1, hfold.2.2.1, hfold.2.2.2.1, hfold.2.2.2.2.1,
    hfold.2.2.2.2.2, ?_⟩
  · simp [get_results_table]
  · show (plan.enum.map (fun e =>
        result_row plan_columns scoring (gridValues e.1) (evalScores e.1) meanF stdF strF e.2)).get? idx = _
    rw [List.get?_eq_getElem?, List.getElem?_map, ← List.get?_eq_getElem?, enum_get, hidx]
    rfl
  · intro c hc
    refine result_row_fold_preserved _ _ _ _ _ scoring c ?_ _
    intro m' hm'r hcm
    exact hc (List.mem_flatten.mpr ⟨metric_columns m', List.mem_map_of_mem _ hm'r, hcm⟩)

/-- C4 witness: one plan row with one step column and one metric. -/
theorem C4_get_results_witness :
    ("acc" : String) ∈ (["acc"] : List String) ∧ (["acc"] : List String).Nodup
    ∧ ([[7]] : List (List Nat)).get? 0 = some [7]
    ∧ ((get_results_table ["Scaler"] ([[7]] : List (List Nat)) ["acc"]
        (fun _ _ => (1, 2, 3)) (fun _ _ => [4, 5]) (fun l => l.length) (fun _ => 0)
        (fun l => l.headD 0)).1 =
        ["Scaler"] ++ ((["acc"] : List String).map metric_columns).flatten
    ∧ (get_results_table ["Scaler"] ([[7]] : List (List Nat)) ["acc"]
        (fun _ _ => (1, 2, 3)) (fun _ _ => [4, 5]) (fun l => l.length) (fun _ => 0)
        (fun l => l.headD 0)).2.length = ([[7]] : List (List Nat)).length
    ∧ (get_results_table ["Scaler"] ([[7]] : List (List Nat)) ["acc"]
        (fun _ _ => (1, 2, 3)) (fun _ _ => [4, 5]) (fun l => l.length) (fun _ => 0)
        (fun l => l.headD 0)).2.get? 0 =
        some (result_row ["Scaler"] ["acc"] (fun _ => (1, 2, 3)) (fun _ => [4, 5])
          (fun l => l.length) (fun _ => 0) (fun l => l.headD 0) [7])
    ∧ odLookup (result_row ["Scaler"] ["acc"] (fun _ => (1, 2, 3)) (fun _ => [4, 5])
        (fun l => l.length) (fun _ => 0) (fun l => l.headD 0) [7])
        ("grid_" ++ "acc" ++ "_mean") = some ((fun (_ : String) => ((1 : Nat), (2 : Nat), (3 : Nat))) "acc").1
    ∧ odLookup (result_row ["Scaler"] ["acc"] (fun _ => (1, 2, 3)) (fun _ => [4, 5])
        (fun l => l.length) (fun _ => 0) (fun l => l.headD 0) [7])
        ("grid_" ++ "acc" ++ "_std") = some ((fun (_ : String) => ((1 : Nat), (2 : Nat), (3 : Nat))) "acc").2.1
    ∧ odLookup (result_row ["Scaler"] ["acc"] (fun _ => (1, 2, 3)) (fun _ => [4, 5])
        (fun l => l.length) (fun _ => 0) (fun l => l.headD 0) [7])
        ("grid_" ++ "acc" ++ "_best_params") = some ((fun (_ : String) => ((1 : Nat), (2 : Nat), (3 : Nat))) "acc").2.2
    ∧ odLookup (result_row ["Scaler"] ["acc"] (fun _ => (1, 2, 3)) (fun _ => [4, 5])
        (fun l => l.length) (fun _ => 0) (fun l => l.headD 0) [7])
        ("eval_" ++ "acc" ++ "_mean") = some ((fun (l : List Nat) => l.length) [4, 5])
    ∧ odLookup (result_row ["Scaler"] ["acc"] (fun _ => (1, 2, 3)) (fun _ => [4, 5])
        (fun l => l.length) (fun _ => 0) (fun l => l.headD 0) [7])
        ("eval_" ++ "acc" ++ "_std") = some ((fun (_ : List Nat) => (0 : Nat)) [4, 5])
    ∧ odLookup (result_row ["Scaler"] ["acc"] (fun _ => (1, 2, 3)) (fun _ => [4, 5])
        (fun l => l.length) (fun _ => 0) (fun l => l.headD 0) [7])
        ("eval_" ++ "acc" ++ "_scores") = some ((fun (l : List Nat) => l.headD 0) [4, 5])
    ∧ ∀ c, c ∉ ((["acc"] : List String).map metric_columns).flatten →
        odLookup (result_row ["Scaler"] ["acc"] (fun _ => (1, 2, 3)) (fun _ => [4, 5])
          (fun l => l.length) (fun _ => 0) (fun l => l.headD 0) [7]) c =
        odLookup ((["Scaler"] : List String).zip ([7] : List Nat)) c) :=
  ⟨by decide, by decide, rfl,
   C4_get_results ["Scaler"] [[7]] ["acc"] (fun _ _ => (1, 2, 3)) (fun _ _ => [4, 5])
     (fun l => l.length) (fun _ => 0) (fun l => l.headD 0) "acc" (by decide) (by decide) 0 [7] rfl⟩

theorem odLookup_append_of_not_mem {α : Type} (d1 d2 : List (String × α)) (k : String)
    (h : k ∉ odKeys d1) : odLookup (d1 ++ d2) k = odLookup d2 k := by
  induction d1 with
  | nil => rfl
  | cons e rest ih =>
    simp only [odKeys, List.map_cons, List.mem_cons] at h
    push_neg at h
    have hne : ¬(e.1 = k) := fun he => h.1 he.symm
    simp only [List.cons_append, odLookup, if_neg hne]
    exact ih (by simpa [odKeys] using h.2)

theorem mem_of_getLast?_eq {γ : Type} (l : List γ) (a : γ) (h : l.getLast? = some a) : a ∈ l := by
  obtain ⟨hne, rfl⟩ := List.mem_getLast?_eq_getLast (Option.mem_def.mpr h)
  exact List.getLast_mem hne

theorem odLookup_of_getLast {α : Type} :
    ∀ (d : List (String × α)) (e : String × α), (odKeys d).Nodup → d.getLast? = some e →
    odLookup d e.1 = some e.2 := by
  intro d
  induction d with
  | nil => intro e _ h; simp at h
  | cons f rest ih =>
    intro e hnd h
    cases rest with
    | nil =>
      simp only [List.getLast?_singleton, Option.some.injEq] at h
      subst h
      simp [odLookup]
    | cons g rest2 =>
      have h2 : (g :: rest2).getLast? = some e := by
        rw [List.getLast?_cons_cons] at h
        exact h
      have hmem : e ∈ g :: rest2 := mem_of_getLast?_eq _ _ h2
      simp only [odKeys, List.map_cons, List.nodup_cons] at hnd
      have hne : ¬(f.1 = e.1) := by
        intro hfe
        exact hnd.1 (hfe ▸ List.mem_map_of_mem Prod.fst hmem)
      simp only [odLookup, if_neg hne]
      exact ih e (by simpa [odKeys] using hnd.2) h2

theorem transform_X_go_spec {α : Type} (ns : String → String → α → α) :
    ∀ (pairs : List (String × String)) (cache : List (String × α)) (prev : String) (X : α),
      odLookup cache prev = some X →
      (pairs.map Prod.fst).Nodup →
      (∀ pr ∈ pairs, pr.1 ∉ odKeys cache) →
      transform_X_go ns cache prev pairs =
        .ok (cache ++ chain_from ns X pairs, pairs.map (fun pr => (pr.2, pr.1))) := by
  intro pairs
  induction pairs with
  | nil => intro cache prev X _ _ _; simp [transform_X_go, chain_from]
  | cons pr rest ih =>
    intro cache prev X hlook hnd hmem
    obtain ⟨rk, col⟩ := pr
    have hrk : rk ∉ odKeys cache := hmem (rk, col) (by simp)
    have hins : odInsert cache rk (ns col rk X) = cache ++ [(rk, ns col rk X)] :=
      odInsert_of_not_mem _ _ _ hrk
    simp only [List.map_cons] at hnd
    have hih := ih (cache ++ [(rk, ns col rk X)]) rk (ns col rk X)
      (by rw [odLookup_append_of_not_mem _ _ _ hrk]; simp [odLookup])
      ((List.nodup_cons.mp hnd).2)
      (by
        intro pr2 hpr2
        simp only [odKeys, List.map_append, List.map_cons, List.map_nil, List.mem_append,
          List.mem_cons, List.not_mem_nil, or_false]
        push_neg
        exact ⟨fun hm => hmem pr2 (List.mem_cons_of_mem _ hpr2) hm,
          fun he => (List.nodup_cons.mp hnd).1 (he ▸ List.mem_map_of_mem Prod.fst hpr2)⟩)
    simp only [transform_X_go, hlook, hins, hih]
    simp [chain_from, List.append_assoc]

theorem twc_return_resolve {α β : Type} (ns : String → String → α → α) (y : β) :
    ∀ (pairs : List (String × String)) (cache : List (String × α)) (prev : String) (X : α)
      (app : List (String × String)),
      (odKeys cache).getLast? = some prev →
      odLookup cache prev = some X →
      (odKeys cache ++ pairs.map Prod.fst).Nodup →
      twc_return y (.ok (cache ++ chain_from ns X pairs, app)) =
        .ok (cache ++ chain_from ns X pairs, app,
          pairs.foldl (fun acc pr => ns pr.2 pr.1 acc) X, y) := by
  intro pairs
  induction pairs with
  | nil =>
    intro cache prev X app hlast hlook _
    simp [twc_return, chain_from, hlast, hlook]
  | cons pr rest ih =>
    intro cache prev X app hlast hlook hnd
    obtain ⟨rk, col⟩ := pr
    have hrk : rk ∉ odKeys cache := by
      rcases List.nodup_append.mp hnd with ⟨_, _, hdisj⟩
      intro hm
      exact hdisj hm (by simp)
    have heq : cache ++ chain_from ns X ((rk, col) :: rest) =
        (cache ++ [(rk, ns col rk X)]) ++ chain_from ns (ns col rk X) rest := by
      simp [chain_from, List.append_assoc]
    have hnd2 : (odKeys (cache ++ [(rk, ns col rk X)]) ++ rest.map Prod.fst).Nodup := by
      simp only [odKeys, List.map_append, List.map_cons, List.map_nil] at hnd ⊢
      rw [List.append_assoc]
      simpa using hnd
    rw [heq, ih (cache ++ [(rk, ns col rk X)]) rk (ns col rk X) app
      (by simp [odKeys, List.map_append])
      (by rw [odLookup_append_of_not_mem _ _ _ hrk]; simp [odLookup]) hnd2]
    simp [List.foldl_cons]

theorem lcp_len_le_right (as : List String) : ∀ bs : List String, lcp_len as bs ≤ bs.length := by
  induction as with
  | nil => intro bs; simp [lcp_len]
  | cons a as ih =>
    intro bs
    cases bs with
    | nil => simp [lcp_len]
    | cons b bs2 =>
      by_cases h : a = b
      · simp only [lcp_len, if_pos h, List.length_cons]
        exact Nat.succ_le_succ (ih bs2)
      · simp [lcp_len, h]

theorem lcp_take (as : List String) :
    ∀ bs : List String, as.take (lcp_len as bs) = bs.take (lcp_len as bs) := by
  induction as with
  | nil => intro bs; cases bs <;> simp [lcp_len]
  | cons a as ih =>
    intro bs
    cases bs with
    | nil => simp [lcp_len]
    | cons b bs2 =>
      by_cases h : a = b
      · subst h
        simp [lcp_len, List.take_succ_cons, ih bs2]
      · simp [lcp_len, h]

theorem unmatched_keys_self (rks : List String) :
    ∀ cks : List String, unmatched_keys cks rks cks = cks.drop (lcp_len rks cks) := by
  induction rks with
  | nil => intro cks; cases cks <;> simp [unmatched_keys, lcp_len]
  | cons rk rks ih =>
    intro cks
    cases cks with
    | nil => simp [unmatched_keys, lcp_len]
    | cons ck cks2 =>
      by_cases h : rk = ck
      · subst h
        simp only [unmatched_keys, if_pos rfl, List.erase_cons_head, lcp_len,
          List.drop_succ_cons]
        exact ih cks2
      · simp [unmatched_keys, h, lcp_len]

theorem foldl_odDel_cons {α : Type} (e : String × α) :
    ∀ (ks : List String) (d : List (String × α)), (∀ k ∈ ks, k ≠ e.1) →
    ks.foldl odDel (e :: d) = e :: ks.foldl odDel d := by
  intro ks
  induction ks with
  | nil => intro d _; rfl
  | cons k ks ih =>
    intro d hk
    have hne : ¬(e.1 = k) := fun h => hk k (by simp) h.symm
    simp only [List.foldl_cons, odDel, if_neg hne]
    exact ih _ (fun k2 hk2 => hk k2 (by simp [hk2]))

theorem foldl_odDel_drop {α : Type} :
    ∀ (cache : List (String × α)) (p : Nat), (odKeys cache).Nodup →
    ((odKeys cache).drop p).foldl odDel cache = cache.take p := by
  intro cache
  induction cache with
  | nil => intro p _; simp [odKeys]
  | cons e rest ih =>
    intro p hnd
    simp only [odKeys, List.map_cons] at hnd ⊢
    rcases List.nodup_cons.mp hnd with ⟨he, hnd2⟩
    cases p with
    | zero =>
      simp only [List.drop_zero, List.take_zero, List.foldl_cons, odDel, if_pos rfl]
      have := ih 0 hnd2
      simpa using this
    | succ q =>
      simp only [List.drop_succ_cons, List.take_succ_cons]
      rw [foldl_odDel_cons e _ rest
        (fun k hk hke => he (hke ▸ List.mem_of_mem_drop hk))]
      exact congrArg (e :: ·) (ih q hnd2)

/-- The intended remove_unmatched_caching_X evicts exactly the entries whose
position is at or beyond the longest common prefix of the requested keys and
the cached key sequence, keeping the leading matched entries. -/
theorem remove_unmatched_spec {α : Type} (cache : List (String × α)) (row_keys : List String)
    (hnd : (odKeys cache).Nodup) :
    remove_unmatched_caching_X cache row_keys =
      cache.take (lcp_len row_keys (odKeys cache)) := by
  unfold remove_unmatched_caching_X
  rw [unmatched_keys_self, foldl_odDel_drop cache _ hnd]

/-- The first call (empty cache) of the literal transform_with_caching: the
cache becomes the root entry followed by the full chain, every position is
applied once in order, and the returned data is exactly the from-scratch
fold of the cacheable chain over the input. -/
theorem transform_with_caching_first_call {α β : Type} (ns : String → String → α → α)
    (plan_columns : List String) (X : α) (y : β) (row_keys : List String)
    (hnd : row_keys.Nodup) (hinit : "init" ∉ row_keys)
    (hlen : row_keys.length ≤ plan_columns.length) :
    transform_with_caching ns plan_columns X y row_keys [] =
      .ok (("init", X) :: chain_from ns X (row_keys.zip (plan_columns.take row_keys.length)),
        (row_keys.zip (plan_columns.take row_keys.length)).map (fun pr => (pr.2, pr.1)),
        scratch_transform ns (plan_columns.take row_keys.length) row_keys X, y) := by
  have hlen2 : row_keys.length ≤ (plan_columns.take row_keys.length).length := by
    simp only [List.length_take]
    omega
  have hmapfst : (row_keys.zip (plan_columns.take row_keys.length)).map Prod.fst = row_keys :=
    List.map_fst_zip _ _ hlen2
  have hgo := transform_X_go_spec ns (row_keys.zip (plan_columns.take row_keys.length))
    [("init", X)] "init" X (by simp [odLookup]) (by rw [hmapfst]; exact hnd)
    (by
      intro pr hpr
      have hmem : pr.1 ∈ row_keys := by
        obtain ⟨rk, col⟩ := pr
        exact (List.of_mem_zip hpr).1
      simp only [odKeys, List.map_cons, List.map_nil, List.mem_cons, List.not_mem_nil, or_false]
      intro he
      exact hinit (he ▸ hmem))
  have hres := twc_return_resolve ns y (row_keys.zip (plan_columns.take row_keys.length))
    [("init", X)] "init" X
    ((row_keys.zip (plan_columns.take row_keys.length)).map (fun pr => (pr.2, pr.1)))
    (by simp [odKeys]) (by simp [odLookup])
    (by
      simp only [odKeys, List.map_cons, List.map_nil, hmapfst, List.singleton_append]
      exact List.nodup_cons.mpr ⟨hinit, hnd⟩)
  show twc_return y (transform_X_go ns [("init", X)] "init"
    (row_keys.zip (plan_columns.take row_keys.length))) = _
  rw [hgo, hres]
  rfl

/-- The intended transform_with_caching (cp.copy read as copy.copy) on a
cache holding the root entry and a chain: with p the longest common prefix
length of the requested keys and the cached chain keys, the root and the
first p chain entries survive, every entry at position p or beyond is
evicted, the positions from p on are recomputed by chaining fit_transform
from the data XP of the last surviving entry, and the returned data is the
fold of the recomputed tail over XP. -/
theorem transform_with_caching_intended_spec {α β : Type} (ns : String → String → α → α)
    (plan_columns : List String) (X X0 XP : α) (y : β) (pk : String)
    (row_keys : List String) (chain : List (String × α))
    (hnd : ("init" :: odKeys chain).Nodup)
    (hrknd : row_keys.Nodup) (hinit : "init" ∉ row_keys)
    (hlen : row_keys.length ≤ plan_columns.length)
    (hlast : (("init", X0) :: chain.take (lcp_len row_keys (odKeys chain))).getLast? =
      some (pk, XP)) :
    transform_with_caching_intended ns plan_columns X y row_keys (("init", X0) :: chain) =
      .ok (("init", X0) :: (chain.take (lcp_len row_keys (odKeys chain)) ++
          chain_from ns XP ((row_keys.drop (lcp_len row_keys (odKeys chain))).zip
            ((plan_columns.take row_keys.length).drop (lcp_len row_keys (odKeys chain))))),
        ((row_keys.drop (lcp_len row_keys (odKeys chain))).zip
          ((plan_columns.take row_keys.length).drop (lcp_len row_keys (odKeys chain)))).map
          (fun pr => (pr.2, pr.1)),
        ((row_keys.drop (lcp_len row_keys (odKeys chain))).zip
          ((plan_columns.take row_keys.length).drop (lcp_len row_keys (odKeys chain)))).foldl
          (fun acc pr => ns pr.2 pr.1 acc) XP, y) := by
  have hndchain : (odKeys chain).Nodup := (List.nodup_cons.mp hnd).2
  have hinitchain : "init" ∉ odKeys chain := (List.nodup_cons.mp hnd).1
  have hple : lcp_len row_keys (odKeys chain) ≤ chain.length := by
    have := lcp_len_le_right row_keys (odKeys chain)
    simpa [odKeys] using this
  have hkeysall : odKeys (("init", X0) :: chain) = "init" :: odKeys chain := by
    simp [odKeys]
  have hcache1 : remove_unmatched_caching_X (("init", X0) :: chain) ("init" :: row_keys) =
      ("init", X0) :: chain.take (lcp_len row_keys (odKeys chain)) := by
    rw [remove_unmatched_spec _ _ (by rw [hkeysall]; exact hnd)]
    rw [hkeysall]
    simp [lcp_len, List.take_succ_cons]
  have hlen1 : (("init", X0) :: chain.take (lcp_len row_keys (odKeys chain))).length =
      lcp_len row_keys (odKeys chain) + 1 := by
    simp only [List.length_cons, List.length_take]
    omega
  have hkeys1 : odKeys (("init", X0) :: chain.take (lcp_len row_keys (odKeys chain))) =
      "init" :: (odKeys chain).take (lcp_len row_keys (odKeys chain)) := by
    simp [odKeys, List.map_take]
  have htake : (odKeys chain).take (lcp_len row_keys (odKeys chain)) =
      row_keys.take (lcp_len row_keys (odKeys chain)) :=
    (lcp_take row_keys (odKeys chain)).symm
  have hnd1 : (odKeys (("init", X0) ::
      chain.take (lcp_len row_keys (odKeys chain)))).Nodup := by
    rw [hkeys1, htake]
    exact List.nodup_cons.mpr
      ⟨fun hm => hinit (List.mem_of_mem_take hm),
       hrknd.sublist (List.take_sublist _ _)⟩
  have hlastkeys : (odKeys (("init", X0) ::
      chain.take (lcp_len row_keys (odKeys chain)))).getLast? = some pk := by
    show ((("init", X0) :: chain.take (lcp_len row_keys (odKeys chain))).map
      Prod.fst).getLast? = some pk
    rw [List.getLast?_map, hlast]
    rfl
  have hlook : odLookup (("init", X0) :: chain.take (lcp_len row_keys (odKeys chain))) pk =
      some XP :=
    odLookup_of_getLast _ (pk, XP) hnd1 hlast
  have hlen3 : (row_keys.drop (lcp_len row_keys (odKeys chain))).length ≤
      ((plan_columns.take row_keys.length).drop (lcp_len row_keys (odKeys chain))).length := by
    simp only [List.length_drop, List.length_take]
    omega
  have hmapfst : ((row_keys.drop (lcp_len row_keys (odKeys chain))).zip
      ((plan_columns.take row_keys.length).drop (lcp_len row_keys (odKeys chain)))).map
      Prod.fst = row_keys.drop (lcp_len row_keys (odKeys chain)) :=
    List.map_fst_zip _ _ hlen3
  have hgo := transform_X_go_spec ns
    ((row_keys.drop (lcp_len row_keys (odKeys chain))).zip
      ((plan_columns.take row_keys.length).drop (lcp_len row_keys (odKeys chain))))
    (("init", X0) :: chain.take (lcp_len row_keys (odKeys chain))) pk XP hlook
    (by rw [hmapfst]; exact hrknd.sublist (List.drop_sublist _ _))
    (by
      intro pr hpr
      have hmemdrop : pr.1 ∈ row_keys.drop (lcp_len row_keys (odKeys chain)) := by
        obtain ⟨rk, col⟩ := pr
        exact (List.of_mem_zip hpr).1
      rw [hkeys1, htake]
      simp only [List.mem_cons]
      push_neg
      constructor
      · intro he
        exact hinit (he ▸ List.mem_of_mem_drop hmemdrop)
      · intro hm
        exact (List.disjoint_take_drop hrknd (le_refl _)) hm hmemdrop)
  have hres := twc_return_resolve ns y
    ((row_keys.drop (lcp_len row_keys (odKeys chain))).zip
      ((plan_columns.take row_keys.length).drop (lcp_len row_keys (odKeys chain))))
    (("init", X0) :: chain.take (lcp_len row_keys (odKeys chain))) pk XP
    (((row_keys.drop (lcp_len row_keys (odKeys chain))).zip
      ((plan_columns.take row_keys.length).drop (lcp_len row_keys (odKeys chain)))).map
      (fun pr => (pr.2, pr.1)))
    hlastkeys hlook
    (by
      rw [hkeys1, htake, hmapfst, List.cons_append, List.take_append_drop]
      exact List.nodup_cons.mpr ⟨hinit, hrknd⟩)
  simp only [transform_with_caching_intended]
  rw [if_neg (by rw [hkeysall]; simp)]
  rw [hcache1, hlen1]
  simp only [List.drop_succ_cons]
  simp only [transform_X_from_last_cached, hlastkeys]
  rw [hgo, hres]
  simp [List.cons_append]

/-- Concrete intended-cache run: cached chain a, b and requested keys a, c
share prefix length 1, so b is evicted, position 1 is recomputed from the
surviving entry a, and only that one transformer is applied. -/
theorem transform_with_caching_intended_eviction :
    transform_with_caching_intended (fun _ k l => l ++ [k]) ["S1", "S2"] ([] : List String) 0
      ["a", "c"] [("init", []), ("a", ["a"]), ("b", ["a", "b"])] =
      .ok ([("init", []), ("a", ["a"]), ("c", ["a", "c"])], [("S2", "c")], ["a", "c"], 0) := rfl
